import Mathlib

/-!
Verification of the Context-Runner / vs-upload-image extension core
(`src/extension.js`) against its natural-language specification.

The embedding below translates the relevant JavaScript functions into
executable Lean definitions:

* the command construction inside `executeUploadCommand`
  (src/extension.js lines 185–233),
* the log writer `writeLog` (lines 83–96),
* the environment parsing in `getEnvironmentVariables` (lines 128–147),
* the sequential batch loop of `uploadFolderImages` (lines 313–332)
  together with the progress reporting at the top of
  `executeUploadCommand` (lines 175–183).
-/

namespace ContextRunner

/-! ## Command construction (src/extension.js, `executeUploadCommand`) -/

/-- Left-to-right, non-overlapping replacement of every occurrence of
`pat` by `repl` in a character list.  This is the semantics of the
JavaScript global-regex replace `s.replace(/pat/g, repl)` for a literal
pattern.  (JavaScript `$`-escape sequences in the replacement string are
not modelled; the theorems below therefore quantify over replacement
strings, which for this program are file paths.) -/
def replaceList (pat repl : List Char) : List Char → List Char
  | [] => []
  | c :: rest =>
    if (c :: rest).take pat.length = pat then
      repl ++ replaceList pat repl (rest.drop (pat.length - 1))
    else
      c :: replaceList pat repl rest
termination_by s => s.length
decreasing_by
  · simp only [List.length_drop, List.length_cons]
    omega
  · simp only [List.length_cons]
    omega

/-- String wrapper for `replaceList`: the model of
`s.replace(/pat/g, repl)` with a literal pattern `pat`. -/
def jsReplaceAll (s pat repl : String) : String :=
  ⟨replaceList pat.data repl.data s.data⟩

/-- The literal placeholder used by `executeUploadCommand`:
`uploadCommand.replace(/\{imagePath\}/g, imagePath)` (line 187). -/
def placeholderL : List Char := "{imagePath}".data

/-- The inner shell command chosen by `executeUploadCommand`
(src/extension.js lines 185–233).  The JavaScript tests configuration
values for truthiness, so an unset/empty string counts as absent:
  * if `uploadCommand` is non-empty, the command is the template with
    every literal `{imagePath}` occurrence replaced by the file path
    (line 187) — the raw path, no quoting is added;
  * else if `scriptPath` is non-empty, the command is the quoted script
    path followed by the quoted image path (line 213);
  * else the promise is rejected (line 231). -/
def buildInnerCommand (uploadCommand scriptPath imagePath : String) :
    Except String String :=
  if uploadCommand ≠ "" then
    Except.ok (jsReplaceAll uploadCommand "{imagePath}" imagePath)
  else if scriptPath ≠ "" then
    Except.ok ("\"" ++ scriptPath ++ "\" \"" ++ imagePath ++ "\"")
  else
    Except.error "No upload command or script path configured"

/-- The full command string handed to `exec` (lines 191–195 and
213–217): the inner command is prefixed by sourcing `~/.zshrc` and the
whole thing is wrapped in `zsh -i -c "..."`. -/
def executedCommand (inner : String) : String :=
  "zsh -i -c \"" ++ ("source ~/.zshrc > /dev/null 2>&1 && " ++ inner) ++ "\""

/-- Does `pat` occur as a contiguous substring of the list? -/
def containsSub (pat : List Char) : List Char → Bool
  | [] => pat.isEmpty
  | c :: rest => ((c :: rest).take pat.length == pat) || containsSub pat rest

theorem replaceList_nil (pat repl : List Char) : replaceList pat repl [] = [] := by
  simp [replaceList]

theorem replaceList_cons (pat repl : List Char) (c : Char) (rest : List Char) :
    replaceList pat repl (c :: rest) =
      if (c :: rest).take pat.length = pat then
        repl ++ replaceList pat repl (rest.drop (pat.length - 1))
      else
        c :: replaceList pat repl rest := by
  rw [replaceList]

theorem replaceList_of_not_containsSub (pat repl : List Char) :
    ∀ l : List Char, containsSub pat l = false → replaceList pat repl l = l := by
  intro l
  induction l with
  | nil => intro _; simp [replaceList]
  | cons c rest ih =>
    intro h
    simp only [containsSub, Bool.or_eq_false_iff, beq_eq_false_iff_ne, ne_eq] at h
    rw [replaceList_cons, if_neg h.1, ih h.2]

theorem take_ne_of_head_ne (c : Char) (rest pat : List Char) (p : Char)
    (ptail : List Char) (hp : pat = p :: ptail) (hc : c ≠ p) :
    ((c :: rest).take pat.length = pat) = False := by
  subst hp
  simp only [List.length_cons, List.take_succ_cons, List.cons.injEq, eq_iff_iff,
    iff_false, not_and]
  intro h
  exact absurd h hc

theorem replaceList_append_left (pat repl : List Char) (p : Char) (ptail : List Char)
    (hp : pat = p :: ptail) :
    ∀ l s : List Char, (∀ c ∈ l, c ≠ p) →
      replaceList pat repl (l ++ s) = l ++ replaceList pat repl s := by
  intro l
  induction l with
  | nil => intro s _; rfl
  | cons c rest ih =>
    intro s h
    have hc : c ≠ p := h c (List.mem_cons_self c rest)
    rw [List.cons_append, replaceList_cons,
      if_neg (by rw [take_ne_of_head_ne c (rest ++ s) pat p ptail hp hc]; exact id),
      ih s (fun x hx => h x (List.mem_cons_of_mem c hx))]
    rfl

theorem replaceList_pat_append (pat repl : List Char) (p : Char) (ptail : List Char)
    (hp : pat = p :: ptail) (s : List Char) :
    replaceList pat repl (pat ++ s) = repl ++ replaceList pat repl s := by
  subst hp
  rw [List.cons_append, replaceList_cons]
  have htake : ((p :: (ptail ++ s)).take (p :: ptail).length = p :: ptail) := by
    have : p :: (ptail ++ s) = (p :: ptail) ++ s := by simp
    rw [this, List.take_left]
  rw [if_pos htake]
  have hdrop : (ptail ++ s).drop ((p :: ptail).length - 1) = s := by
    simp only [List.length_cons, Nat.add_sub_cancel]
    exact List.drop_left ptail s
  rw [hdrop]

theorem not_containsSub_of_no_head (pat : List Char) (p : Char) (ptail : List Char)
    (hp : pat = p :: ptail) :
    ∀ l : List Char, (∀ c ∈ l, c ≠ p) → containsSub pat l = false := by
  intro l
  induction l with
  | nil => intro _; simp [containsSub, hp]
  | cons c rest ih =>
    intro h
    have hc : c ≠ p := h c (List.mem_cons_self c rest)
    simp only [containsSub, Bool.or_eq_false_iff, beq_eq_false_iff_ne, ne_eq]
    constructor
    · rw [take_ne_of_head_ne c rest pat p ptail hp hc]; exact id
    · exact ih (fun x hx => h x (List.mem_cons_of_mem c hx))

theorem placeholderL_eq : placeholderL = '{' :: "imagePath\x7d".data := rfl

/-- Helper: a template of the form `t1 ++ "{imagePath}" ++ t2` with
brace-free `t1` and `t2` is rewritten by `buildInnerCommand` to
`t1 ++ path ++ t2`, the raw (unquoted) path substituted for the
placeholder. -/
theorem buildInner_subst_general (t1 t2 path sp : String)
    (h1 : ∀ c ∈ t1.data, c ≠ '{') (h2 : ∀ c ∈ t2.data, c ≠ '{') :
    buildInnerCommand (t1 ++ "{imagePath}" ++ t2) sp path =
      Except.ok (t1 ++ path ++ t2) := by
  have hdata : (t1 ++ "{imagePath}" ++ t2).data =
      t1.data ++ (placeholderL ++ t2.data) := by
    simp [String.data_append, placeholderL]
  have hne : (t1 ++ "{imagePath}" ++ t2) ≠ "" := by
    intro h
    have : (t1 ++ "{imagePath}" ++ t2).data = ([] : List Char) := by
      rw [h]
    rw [hdata] at this
    rcases List.append_eq_nil.mp this with ⟨-, h2'⟩
    rcases List.append_eq_nil.mp h2' with ⟨hph, -⟩
    rw [placeholderL_eq] at hph
    exact List.cons_ne_nil _ _ hph
  unfold buildInnerCommand
  rw [if_pos hne]
  unfold jsReplaceAll
  have hpat : ("{imagePath}" : String).data = placeholderL := rfl
  rw [hpat, hdata,
    replaceList_append_left placeholderL path.data '{' "imagePath\x7d".data
      placeholderL_eq t1.data (placeholderL ++ t2.data) h1,
    replaceList_pat_append placeholderL path.data '{' "imagePath\x7d".data
      placeholderL_eq t2.data,
    replaceList_of_not_containsSub placeholderL path.data t2.data
      (not_containsSub_of_no_head placeholderL '{' "imagePath\x7d".data
        placeholderL_eq t2.data h2)]
  congr 1
  apply String.ext
  simp [String.data_append]

/-- Helper: a non-empty template that does not contain the placeholder
is passed through `buildInnerCommand` verbatim — the file path is not
appended and `scriptPath` is ignored. -/
theorem buildInner_no_placeholder (tmpl sp path : String) (h : tmpl ≠ "")
    (hnc : containsSub placeholderL tmpl.data = false) :
    buildInnerCommand tmpl sp path = Except.ok tmpl := by
  unfold buildInnerCommand
  rw [if_pos h]
  unfold jsReplaceAll
  have hpat : ("{imagePath}" : String).data = placeholderL := rfl
  rw [hpat, replaceList_of_not_containsSub placeholderL path.data tmpl.data hnc]

/-- C1 counterexample: with both `uploadCommand = "mytool"` and
`scriptPath = "/s.sh"` configured and target file `/f.png`, the
constructed command is the template `"mytool"` — the template branch
wins — and not the quoted script path followed by the quoted file path
that the claim requires. -/
theorem c1_counterexample :
    buildInnerCommand "mytool" "/s.sh" "/f.png" = Except.ok "mytool" ∧
    (Except.ok "mytool" : Except String String) ≠
      Except.ok "\"/s.sh\" \"/f.png\"" := by
  refine ⟨buildInner_no_placeholder "mytool" "/s.sh" "/f.png" (by decide) (by decide), ?_⟩
  intro h
  exact absurd (Except.ok.inj h) (by decide)

/-- C1 (amended): when both the command template (`uploadCommand`) and
`scriptPath` are non-empty, the template takes precedence: the
constructed command is the template with every `\x7bimagePath\x7d`
occurrence replaced by the file path, and the result is independent of
`scriptPath`. -/
theorem c1_theorem (tmpl sp sp' path : String) (h : tmpl ≠ "") :
    buildInnerCommand tmpl sp path =
      Except.ok (jsReplaceAll tmpl "{imagePath}" path) ∧
    buildInnerCommand tmpl sp path = buildInnerCommand tmpl sp' path := by
  unfold buildInnerCommand
  rw [if_pos h, if_pos h]
  exact ⟨rfl, rfl⟩

/-- C1 witness: the amended precedence theorem evaluated at
`uploadCommand = "mytool"`, `scriptPath = "/s.sh"` (or `"/other"`), file
`/f.png`. -/
theorem c1_witness :
    buildInnerCommand "mytool" "/s.sh" "/f.png" =
      Except.ok (jsReplaceAll "mytool" "{imagePath}" "/f.png") ∧
    buildInnerCommand "mytool" "/s.sh" "/f.png" =
      buildInnerCommand "mytool" "/other" "/f.png" :=
  c1_theorem "mytool" "/s.sh" "/other" "/f.png" (by decide)

/-- C3 counterexample: with `scriptPath = ""`,
template `echo \x7bimagePath\x7d done` and file `/a b.png`, the built
command substitutes the raw path — `echo /a b.png done` — and not the
double-quoted path `echo "/a b.png" done` that the claim requires. -/
theorem c3_counterexample :
    buildInnerCommand "echo {imagePath} done" "" "/a b.png" =
      Except.ok "echo /a b.png done" ∧
    ("echo /a b.png done" : String) ≠ "echo \"/a b.png\" done" := by
  have h := buildInner_subst_general "echo " " done" "/a b.png" ""
    (by decide) (by decide)
  have e1 : ("echo " : String) ++ "{imagePath}" ++ " done" =
      "echo {imagePath} done" := rfl
  have e2 : ("echo " : String) ++ "/a b.png" ++ " done" =
      "echo /a b.png done" := rfl
  rw [e1, e2] at h
  exact ⟨h, by decide⟩

/-- C3 (amended): with an empty `scriptPath` and a template containing
the placeholder token `\x7bimagePath\x7d`, the built command is the
template with the placeholder occurrence replaced by the raw file path —
the substituted path is NOT wrapped in double quotes.  (Stated for a
template `t1 ++ placeholder ++ t2` with brace-free `t1`, `t2`, which
pins the occurrence set.) -/
theorem c3_theorem (t1 t2 path : String)
    (h1 : ∀ c ∈ t1.data, c ≠ '{') (h2 : ∀ c ∈ t2.data, c ≠ '{') :
    buildInnerCommand (t1 ++ "{imagePath}" ++ t2) "" path =
      Except.ok (t1 ++ path ++ t2) :=
  buildInner_subst_general t1 t2 path "" h1 h2

/-- C3 witness: the amended substitution theorem evaluated at template
`echo \x7bimagePath\x7d done` and file `/a b.png`. -/
theorem c3_witness :
    buildInnerCommand (("echo " : String) ++ "{imagePath}" ++ " done") "" "/a b.png" =
      Except.ok (("echo " : String) ++ "/a b.png" ++ " done") :=
  c3_theorem "echo " " done" "/a b.png" (by decide) (by decide)

/-- C4 counterexample: with `scriptPath = ""`, the placeholder-free
template `mytool --flag` and file `/x.txt`, the built command is the
template verbatim — `mytool --flag` — and not the template with the
quoted file path appended that the claim requires. -/
theorem c4_counterexample :
    buildInnerCommand "mytool --flag" "" "/x.txt" = Except.ok "mytool --flag" ∧
    (Except.ok "mytool --flag" : Except String String) ≠
      Except.ok "mytool --flag \"/x.txt\"" := by
  refine ⟨buildInner_no_placeholder "mytool --flag" "" "/x.txt" (by decide) (by decide), ?_⟩
  intro h
  exact absurd (Except.ok.inj h) (by decide)

/-- C4 (amended): with an empty `scriptPath` and a non-empty template
that does not contain the placeholder token, the built command is the
template string verbatim — the file path is NOT appended (it is simply
dropped from the invocation). -/
theorem c4_theorem (tmpl path : String) (h : tmpl ≠ "")
    (hnc : containsSub placeholderL tmpl.data = false) :
    buildInnerCommand tmpl "" path = Except.ok tmpl :=
  buildInner_no_placeholder tmpl "" path h hnc

/-- C4 witness: the amended fallback theorem evaluated at template
`mytool --flag` and file `/x.txt`. -/
theorem c4_witness :
    buildInnerCommand "mytool --flag" "" "/x.txt" = Except.ok "mytool --flag" :=
  c4_theorem "mytool --flag" "/x.txt" (by decide) (by decide)

/-! ## Environment parsing (src/extension.js, `getEnvironmentVariables`) -/

/-- An environment object: a map from variable names to an optional
string value.  `none` models a variable that is absent (or assigned
JavaScript `undefined`). -/
def Env : Type := String → Option String

def emptyEnv : Env := fun _ => none

/-- JavaScript property assignment `env[k] = v` on the object. -/
def setVar (m : Env) (k : String) (v : Option String) : Env :=
  fun q => if q = k then v else m q

/-- `const [key, ...values] = line.split('=')`: the key is the text
before the first `=`. -/
def keyOf (l : List Char) : List Char := l.takeWhile (fun c => c != '=')

/-- `values.join('=')`: everything after the first `=`, taken verbatim;
empty when the line contains no `=`. -/
def valOf (l : List Char) : List Char := (l.dropWhile (fun c => c != '=')).drop 1

/-- The `forEach` loop of lines 130–135: for each line, if the text
before the first `=` is non-empty (JavaScript truthiness of `key`), set
`env[key] = values.join('=')`; otherwise skip the line. -/
def parseEnvLines (lines : List String) : Env :=
  lines.foldl
    (fun m line =>
      let k := keyOf line.data
      if k ≠ [] then setVar m ⟨k⟩ (some ⟨valOf line.data⟩) else m)
    emptyEnv

/-- JavaScript `stdout.split('\n')` on the character list: split at
every newline, keeping empty segments (so the empty input gives one
empty record). -/
def splitLines : List Char → List (List Char)
  | [] => [[]]
  | c :: rest =>
    if c = '\n' then [] :: splitLines rest
    else
      match splitLines rest with
      | [] => [[c]]
      | l :: ls => (c :: l) :: ls

/-- `stdout.split('\n').forEach(...)` of lines 130–135. -/
def parseEnvOutput (stdout : String) : Env :=
  parseEnvLines ((splitLines stdout.data).map (fun l => ⟨l⟩))

/-- JavaScript `a || b` on possibly-absent string values: an absent or
empty string is falsy. -/
def jsOr (a b : Option String) : Option String :=
  match a with
  | some s => if s = "" then b else some s
  | none => b

/-- `const shell = process.env.SHELL || '/bin/zsh'` (line 110). -/
def detectShell (processShell : Option String) : String :=
  match processShell with
  | some s => if s = "" then "/bin/zsh" else s
  | none => "/bin/zsh"

/-- The environment snapshot produced on a SUCCESSFUL shell query
(src/extension.js lines 128–143): the parsed shell output, then the
three fallback assignments
`env.HOME = env.HOME || os.homedir()`,
`env.PATH = env.PATH || process.env.PATH`,
`env.SHELL = env.SHELL || shell`.
No merge with the process environment is performed. -/
def getEnvSuccess (stdout homedir : String) (processEnv : Env) (shell : String) : Env :=
  let env := parseEnvOutput stdout
  let env := setVar env "HOME" (jsOr (env "HOME") (some homedir))
  let env := setVar env "PATH" (jsOr (env "PATH") (processEnv "PATH"))
  let env := setVar env "SHELL" (jsOr (env "SHELL") (some shell))
  env

/-- On a failed shell query (spawn error or a parse exception) the code
resolves with `process.env` verbatim (lines 121–126 and 144–147). -/
def getEnvFailure (processEnv : Env) : Env := processEnv

/-- C7 counterexample: the process environment holds `FOO=bar`, the
shell output is just `HOME=/root`, and the query succeeds — yet the
returned snapshot has no `FOO` entry.  The snapshot is NOT merged over
the inherited process environment. -/
theorem c7_counterexample :
    getEnvSuccess "HOME=/root" "/root"
      (fun k => if k = "FOO" then some "bar" else none) "/bin/zsh" "FOO" = none ∧
    (fun k => if k = "FOO" then some "bar" else none : Env) "FOO" = some "bar" := by
  constructor
  · decide
  · decide

/-- C7 (amended): on a successful shell query, every variable other
than the three fallback keys `HOME`, `PATH`, `SHELL` comes solely from
the parsed shell output: the snapshot is exactly `parseEnvOutput stdout`
there, and inherited process variables absent from the shell output are
absent from the snapshot.  (On a failed query the inherited environment
is used verbatim.) -/
theorem c7_theorem (stdout homedir shell : String) (processEnv : Env) (k : String)
    (h1 : k ≠ "HOME") (h2 : k ≠ "PATH") (h3 : k ≠ "SHELL") :
    getEnvSuccess stdout homedir processEnv shell k = parseEnvOutput stdout k ∧
    getEnvFailure processEnv k = processEnv k := by
  refine ⟨?_, rfl⟩
  unfold getEnvSuccess setVar
  rw [if_neg h3, if_neg h2, if_neg h1]

/-- C7 witness: the amended theorem evaluated at `k = "FOO"`, shell
output `A=1`, an empty process environment. -/
theorem c7_witness :
    getEnvSuccess "A=1" "/root" emptyEnv "/bin/zsh" "FOO" =
      parseEnvOutput "A=1" "FOO" ∧
    getEnvFailure emptyEnv "FOO" = emptyEnv "FOO" :=
  c7_theorem "A=1" "/root" "/bin/zsh" emptyEnv "FOO"
    (by decide) (by decide) (by decide)

/-- C8 counterexample: the record `FOO` contains no `=` character, yet
it is kept: the parser maps `FOO` to the empty string.  This refutes
"only newline-delimited records containing at least one `=` are kept". -/
theorem c8_counterexample :
    parseEnvOutput "FOO" "FOO" = some "" ∧ ('=' ∈ "FOO".data) = False := by
  constructor
  · decide
  · decide

/-- C8 (amended): a record is kept exactly when the text before its
first `=` is non-empty.  For a kept record `k=v` the key is the text
before the first `=` and the value is everything after the first `=`
verbatim (embedded `=` preserved); a record with no `=` at all is kept
with the empty value; a record starting with `=` is dropped. -/
theorem takeWhile_ne_append (r : List Char) :
    ∀ l : List Char, (∀ c ∈ l, c ≠ '=') →
      (l ++ '=' :: r).takeWhile (fun c => c != '=') = l := by
  intro l
  induction l with
  | nil => intro _; simp
  | cons c cs ih =>
    intro h
    have hc : c ≠ '=' := h c (List.mem_cons_self c cs)
    simp only [List.cons_append, List.takeWhile_cons]
    rw [if_pos (by simpa using hc), ih (fun x hx => h x (List.mem_cons_of_mem c hx))]

theorem dropWhile_ne_append (r : List Char) :
    ∀ l : List Char, (∀ c ∈ l, c ≠ '=') →
      (l ++ '=' :: r).dropWhile (fun c => c != '=') = '=' :: r := by
  intro l
  induction l with
  | nil => intro _; simp
  | cons c cs ih =>
    intro h
    have hc : c ≠ '=' := h c (List.mem_cons_self c cs)
    simp only [List.cons_append, List.dropWhile_cons]
    rw [if_pos (by simpa using hc), ih (fun x hx => h x (List.mem_cons_of_mem c hx))]

theorem takeWhile_ne_all :
    ∀ l : List Char, (∀ c ∈ l, c ≠ '=') →
      l.takeWhile (fun c => c != '=') = l := by
  intro l
  induction l with
  | nil => intro _; rfl
  | cons c cs ih =>
    intro h
    have hc : c ≠ '=' := h c (List.mem_cons_self c cs)
    simp only [List.takeWhile_cons]
    rw [if_pos (by simpa using hc), ih (fun x hx => h x (List.mem_cons_of_mem c hx))]

theorem dropWhile_ne_all :
    ∀ l : List Char, (∀ c ∈ l, c ≠ '=') →
      l.dropWhile (fun c => c != '=') = [] := by
  intro l
  induction l with
  | nil => intro _; rfl
  | cons c cs ih =>
    intro h
    have hc : c ≠ '=' := h c (List.mem_cons_self c cs)
    simp only [List.dropWhile_cons]
    rw [if_pos (by simpa using hc), ih (fun x hx => h x (List.mem_cons_of_mem c hx))]

/-- C8 (amended): a record is kept exactly when the text before its
first `=` is non-empty.  For a kept record `k=v` the key is the text
before the first `=` and the value is everything after the first `=`
verbatim (embedded `=` preserved); a record with no `=` at all is kept
with the empty value; a record starting with `=` is dropped. -/
theorem c8_theorem (k v : String) (hk : k ≠ "")
    (hnc : ∀ c ∈ k.data, c ≠ '=') :
    parseEnvLines [k ++ "=" ++ v] k = some v ∧
    parseEnvLines [k] k = some "" ∧
    (∀ q, parseEnvLines ["=" ++ v] q = none) := by
  have hkd : k.data ≠ [] := fun h => hk (String.ext h)
  refine ⟨?_, ?_, ?_⟩
  · have hdata : (k ++ "=" ++ v).data = k.data ++ '=' :: v.data := by
      simp [String.data_append]
    show (if keyOf (k ++ "=" ++ v).data ≠ [] then
        setVar emptyEnv ⟨keyOf (k ++ "=" ++ v).data⟩
          (some ⟨valOf (k ++ "=" ++ v).data⟩) else emptyEnv) k = some v
    unfold keyOf valOf
    rw [hdata, takeWhile_ne_append v.data k.data hnc,
      dropWhile_ne_append v.data k.data hnc]
    rw [if_pos hkd]
    show (if k = (⟨k.data⟩ : String) then some (⟨('=' :: v.data).drop 1⟩ : String)
        else emptyEnv k) = some v
    rw [if_pos rfl]
    rfl
  · show (if keyOf k.data ≠ [] then
        setVar emptyEnv ⟨keyOf k.data⟩ (some ⟨valOf k.data⟩) else emptyEnv) k = some ""
    unfold keyOf valOf
    rw [takeWhile_ne_all k.data hnc, dropWhile_ne_all k.data hnc]
    rw [if_pos hkd]
    show (if k = (⟨k.data⟩ : String) then some (⟨([] : List Char).drop 1⟩ : String)
        else emptyEnv k) = some ""
    rw [if_pos rfl]
    rfl
  · intro q
    show (if keyOf ("=" ++ v).data ≠ [] then
        setVar emptyEnv ⟨keyOf ("=" ++ v).data⟩
          (some ⟨valOf ("=" ++ v).data⟩) else emptyEnv) q = none
    have hdata : ("=" ++ v).data = '=' :: v.data := by
      simp [String.data_append]
    unfold keyOf
    rw [hdata]
    simp [List.takeWhile_cons, emptyEnv]

/-- C8 witness: the amended parsing theorem evaluated at key `FOO` and
value `a=b` (the embedded `=` is preserved verbatim in the value). -/
theorem c8_witness :
    parseEnvLines ["FOO" ++ "=" ++ "a=b"] "FOO" = some "a=b" ∧
    parseEnvLines ["FOO"] "FOO" = some "" ∧
    (∀ q, parseEnvLines ["=" ++ "a=b"] q = none) :=
  c8_theorem "FOO" "a=b" (by decide) (by decide)

theorem jsOr_some_right (a : Option String) (d : String) :
    (jsOr a (some d)).isSome = true := by
  cases a with
  | none => rfl
  | some s =>
    unfold jsOr
    by_cases h : s = "" <;> simp [h]

theorem jsOr_isSome_of_right (a b : Option String) (hb : b.isSome = true) :
    (jsOr a b).isSome = true := by
  cases a with
  | none => exact hb
  | some s =>
    unfold jsOr
    by_cases h : s = "" <;> simp [h, hb]

/-- C10 counterexample: when the shell output contains no `PATH` record
and the invoking process itself has no `PATH` variable, the returned
snapshot has no `PATH` entry either (`env.PATH = env.PATH ||
process.env.PATH` assigns `undefined`).  The snapshot does not always
contain a `PATH` entry. -/
theorem c10_counterexample :
    getEnvSuccess "HOME=/h" "/h" emptyEnv "/bin/zsh" "PATH" = none := by
  decide

/-- C10 (amended): the successful-query snapshot always contains `HOME`
(defaulting to the user's home directory) and `SHELL` (defaulting to
the detected shell); `PATH` defaults to the inherited process `PATH`
and is therefore present whenever the process has a `PATH` variable —
but if both the shell output and the process environment lack `PATH`,
the snapshot lacks it too. -/
theorem c10_theorem (stdout homedir shell : String) (processEnv : Env)
    (hp : (processEnv "PATH").isSome = true) :
    (getEnvSuccess stdout homedir processEnv shell "HOME").isSome = true ∧
    (getEnvSuccess stdout homedir processEnv shell "SHELL").isSome = true ∧
    (getEnvSuccess stdout homedir processEnv shell "PATH").isSome = true := by
  unfold getEnvSuccess setVar
  refine ⟨?_, ?_, ?_⟩
  · rw [if_neg (by decide : ¬ ("HOME" : String) = "SHELL"),
      if_neg (by decide : ¬ ("HOME" : String) = "PATH"),
      if_pos rfl]
    exact jsOr_some_right _ homedir
  · rw [if_pos rfl]
    exact jsOr_some_right _ shell
  · rw [if_neg (by decide : ¬ ("PATH" : String) = "SHELL"), if_pos rfl]
    exact jsOr_isSome_of_right _ _ hp

/-- C10 witness: the amended theorem evaluated at shell output `A=1`
and a process environment carrying `PATH=/usr/bin`. -/
theorem c10_witness :
    (getEnvSuccess "A=1" "/root"
      (fun k => if k = "PATH" then some "/usr/bin" else none) "/bin/zsh" "HOME").isSome = true ∧
    (getEnvSuccess "A=1" "/root"
      (fun k => if k = "PATH" then some "/usr/bin" else none) "/bin/zsh" "SHELL").isSome = true ∧
    (getEnvSuccess "A=1" "/root"
      (fun k => if k = "PATH" then some "/usr/bin" else none) "/bin/zsh" "PATH").isSome = true :=
  c10_theorem "A=1" "/root" "/bin/zsh"
    (fun k => if k = "PATH" then some "/usr/bin" else none) (by decide)

/-! ## Log writer (src/extension.js, `writeLog`, lines 83–96) -/

/-- Failures the logging subsystem can hit: `fs.mkdirSync` or
`fs.appendFileSync` throwing (e.g. a permission error). -/
inductive JsError where
  | mkdirFailed
  | appendFailed
deriving DecidableEq

/-- State of the log directory and file, together with two environment
flags saying whether the next `mkdirSync` / `appendFileSync` call would
fail (modelling external filesystem conditions such as permissions). -/
structure FsState where
  dirExists : Bool
  logContent : List String
  mkdirFails : Bool
  appendFails : Bool
deriving DecidableEq

/-- The single line appended per call (line 94):
`[<ISO timestamp>] <content>` — the timestamp
(`new Date().toISOString()`) is passed as a parameter.  Note there is
no severity field. -/
def logLine (timestamp content : String) : String :=
  "[" ++ timestamp ++ "] " ++ content

/-- `writeLog(content)` (lines 83–96): create the log directory if it
does not exist, then unconditionally append one timestamped line.
There is no `logEnabled`/`logLevel` gating, no severity parameter, and
no try/catch: a failing `mkdirSync` or `appendFileSync` propagates as
an exception (`Except.error`) to the caller. -/
def writeLog (timestamp content : String) (fs : FsState) : Except JsError FsState :=
  if fs.dirExists then
    if fs.appendFails then
      Except.error JsError.appendFailed
    else
      Except.ok { fs with logContent := fs.logContent ++ [logLine timestamp content] }
  else
    if fs.mkdirFails then
      Except.error JsError.mkdirFailed
    else if fs.appendFails then
      Except.error JsError.appendFailed
    else
      Except.ok { fs with dirExists := true,
                          logContent := fs.logContent ++ [logLine timestamp content] }

/-- C5 counterexample: a call whose message is a debug detail is
written even though the claim's gating (`logLevel=warn` suppressing
DEBUG) would forbid it — `writeLog` writes unconditionally — and the
single appended line carries no `[SEVERITY]` marker at all: it is
`[<timestamp>] <message>`, not `[<timestamp>] [<SEVERITY>] <message>`
for any of the four severities. -/
theorem c5_counterexample :
    writeLog "2024-01-01T00:00:00.000Z" "debug detail" ⟨true, [], false, false⟩ =
      Except.ok ⟨true, ["[2024-01-01T00:00:00.000Z] debug detail"], false, false⟩ ∧
    (∀ sev ∈ ["ERROR", "WARN", "INFO", "DEBUG"],
      ("[2024-01-01T00:00:00.000Z] debug detail" : String) ≠
        "[2024-01-01T00:00:00.000Z] [" ++ sev ++ "] debug detail") := by
  constructor
  · rfl
  · decide

/-- C5 (amended): whenever the filesystem cooperates, EVERY `writeLog`
call appends exactly one line `[<timestamp>] <message>` to the log —
there is no `logEnabled`/`logLevel` configuration, no severity
parameter, and no gating, and the appended line has no severity
field. -/
theorem c5_theorem (ts msg : String) (fs : FsState)
    (hmk : fs.dirExists = true ∨ fs.mkdirFails = false)
    (hap : fs.appendFails = false) :
    writeLog ts msg fs =
      Except.ok { fs with dirExists := true,
                          logContent := fs.logContent ++ [logLine ts msg] } := by
  obtain ⟨d, lc, mk, ap⟩ := fs
  cases d with
  | true => simp_all [writeLog]
  | false =>
    rcases hmk with h | h
    · exact absurd h (by simp)
    · simp_all [writeLog]

/-- C5 witness: the amended theorem evaluated on an initially missing
log directory and empty log. -/
theorem c5_witness :
    writeLog "2024-01-01T00:00:00.000Z" "hello" ⟨false, [], false, false⟩ =
      Except.ok ⟨true, ["[2024-01-01T00:00:00.000Z] hello"], false, false⟩ :=
  c5_theorem "2024-01-01T00:00:00.000Z" "hello" ⟨false, [], false, false⟩
    (Or.inr rfl) rfl

/-- C6 counterexample: when appending to the log file fails (e.g. a
permission error), `writeLog` propagates the exception to its caller —
it is not caught locally and no notification is produced by the logger.
This refutes "the log operation never throws to its caller". -/
theorem c6_counterexample :
    writeLog "T" "m" ⟨true, [], false, true⟩ = Except.error JsError.appendFailed := by
  rfl

/-- C6 (amended): `writeLog` performs no local error handling: it
throws to its caller exactly when the underlying filesystem operation
fails — when the log directory is missing and `mkdirSync` fails, or
when `appendFileSync` fails.  (The top-level command handlers, e.g.
`uploadSingleImage`, are what catch such exceptions and surface them as
an error notification, aborting the run.) -/
theorem c6_theorem (ts msg : String) (fs : FsState) :
    (∃ e, writeLog ts msg fs = Except.error e) ↔
      ((fs.dirExists = false ∧ fs.mkdirFails = true) ∨ fs.appendFails = true) := by
  obtain ⟨d, lc, mk, ap⟩ := fs
  cases d <;> cases mk <;> cases ap <;> simp [writeLog]

/-! ## Sequential batch runner
(src/extension.js, `uploadFolderImages` lines 313–332 driving
`executeUploadCommand`, whose progress report is at lines 175–183).

The observable behaviour is modelled as a trace of events.  Per-file
execution is abstracted by an oracle `String → Except String Unit`
giving each file's child-process outcome (ok, or an error message for a
non-zero exit / spawn error).  The internal `writeLog` calls and the
environment-resolution child process are not part of the claims'
observables and are omitted from the trace; the localized notification
templates are abstracted to the underlying message they interpolate. -/

/-- Observable events of one folder-upload invocation. -/
inductive Event where
  | progressReport (percentage index total : Nat)
  | procExit (file : String) (ok : Bool)
  | logMsg (msg : String)
  | notifyInfo (msg : String)
  | notifyError (msg : String)
deriving DecidableEq

/-- `Math.round((index / total) * 100)` for `0 ≤ index ≤ total`,
`total > 0` (line 178), in exact rational arithmetic:
`⌊(100·index)/total + 1/2⌋`.  (IEEE-754 double rounding can deviate
from the exact value only on ties hit inexactly; that corner is not
modelled.) -/
def jsRound100 (index total : Nat) : Nat :=
  (200 * index + total) / (2 * total)

/-- One `executeUploadCommand(file, progress, index, total)` call:
first the progress notification is emitted (lines 176–183, BEFORE the
child process is spawned), then the process runs and exits; a failure
rejects with the error message. -/
def execOneTrace (oracle : String → Except String Unit) (file : String)
    (index total : Nat) : List Event × Option String :=
  let report := Event.progressReport (jsRound100 index total) index total
  match oracle file with
  | Except.error msg => ([report, Event.procExit file false], some msg)
  | Except.ok _ => ([report, Event.procExit file true], none)

/-- The `for` loop of lines 320–322: files are processed strictly
sequentially with 1-based index `i+1`; the first rejection propagates
and ends the loop. -/
def runBatchAux (oracle : String → Except String Unit) (total : Nat) :
    List String → Nat → List Event × Option String
  | [], _ => ([], none)
  | f :: rest, idx =>
    match execOneTrace oracle f idx total with
    | (evs, some msg) => (evs, some msg)
    | (evs, none) =>
      let next := runBatchAux oracle total rest (idx + 1)
      (evs ++ next.1, next.2)

/-- `uploadFolderImages` after the directory walk (lines 308–332): an
empty target set only produces the informational `noImages`
notification; otherwise the batch runs and, on success, a success
notification is shown, while the first failure is logged and surfaced
as an error notification carrying the failure's message.  The second
component is the overall outcome (`some msg` = Failed). -/
def uploadFolderRun (oracle : String → Except String Unit) (files : List String) :
    List Event × Option String :=
  if files.isEmpty then
    ([Event.notifyInfo "noImages"], none)
  else
    match runBatchAux oracle files.length files 1 with
    | (evs, some msg) => (evs ++ [Event.logMsg msg, Event.notifyError msg], some msg)
    | (evs, none) => (evs ++ [Event.notifyInfo "uploadSuccess"], none)

/-- The files for which a child process was actually spawned, in
order. -/
def attempted (evs : List Event) : List String :=
  evs.filterMap fun e =>
    match e with
    | Event.procExit f _ => some f
    | _ => none

/-- The 1-based indices carried by the progress notifications, in
order. -/
def reportIndices (evs : List Event) : List Nat :=
  evs.filterMap fun e =>
    match e with
    | Event.progressReport _ i _ => some i
    | _ => none

theorem attempted_append (a b : List Event) :
    attempted (a ++ b) = attempted a ++ attempted b := by
  unfold attempted
  exact List.filterMap_append a b _

/-- The trace the code actually produces for an all-success batch: for
each target (1-based index `idx`), the progress notification carrying
`index = idx`, `total`, `percentage = round(100·idx/total)` is emitted
first — i.e. after target `idx - 1` has exited and BEFORE target `idx`
is spawned — followed by target `idx`'s successful exit. -/
def expectedTrace (total : Nat) : List String → Nat → List Event
  | [], _ => []
  | f :: rest, idx =>
    Event.progressReport (jsRound100 idx total) idx total ::
      Event.procExit f true :: expectedTrace total rest (idx + 1)

theorem attempted_expectedTrace (total : Nat) :
    ∀ (files : List String) (idx : Nat),
      attempted (expectedTrace total files idx) = files := by
  intro files
  induction files with
  | nil => intro idx; rfl
  | cons f rest ih =>
    intro idx
    simp only [expectedTrace, attempted, List.filterMap_cons]
    rw [← attempted, ih (idx + 1)]

theorem runBatchAux_abort (oracle : String → Except String Unit) (total : Nat)
    (fbad msg : String) (post : List String) (hbad : oracle fbad = Except.error msg) :
    ∀ (pre : List String) (idx : Nat), (∀ f ∈ pre, oracle f = Except.ok ()) →
      runBatchAux oracle total (pre ++ fbad :: post) idx =
        (expectedTrace total pre idx ++
          [Event.progressReport (jsRound100 (idx + pre.length) total) (idx + pre.length) total,
            Event.procExit fbad false], some msg) := by
  intro pre
  induction pre with
  | nil =>
    intro idx _
    simp only [List.nil_append, runBatchAux, execOneTrace, hbad, expectedTrace,
      List.length_nil, Nat.add_zero]
  | cons f pre' ih =>
    intro idx h
    have hf : oracle f = Except.ok () := h f (List.mem_cons_self f pre')
    have ih' := ih (idx + 1) (fun x hx => h x (List.mem_cons_of_mem f hx))
    simp only [List.cons_append, runBatchAux, execOneTrace, hf, List.nil_append,
      List.append_eq]
    rw [ih']
    dsimp only
    simp only [expectedTrace, List.length_cons, List.cons_append]
    have harith : idx + 1 + pre'.length = idx + (pre'.length + 1) := by omega
    rw [harith]

/-- C2: in a folder batch, once a target's execution fails (non-zero
exit or spawn error), no later target is attempted, the overall
operation reports Failed, and the failing target's error message is
both logged and surfaced to the user as an error notification. -/
theorem c2_theorem (oracle : String → Except String Unit)
    (pre post : List String) (fbad msg : String)
    (hpre : ∀ f ∈ pre, oracle f = Except.ok ())
    (hbad : oracle fbad = Except.error msg) :
    attempted (uploadFolderRun oracle (pre ++ fbad :: post)).1 = pre ++ [fbad] ∧
    (uploadFolderRun oracle (pre ++ fbad :: post)).2 = some msg ∧
    Event.logMsg msg ∈ (uploadFolderRun oracle (pre ++ fbad :: post)).1 ∧
    Event.notifyError msg ∈ (uploadFolderRun oracle (pre ++ fbad :: post)).1 := by
  have haux := runBatchAux_abort oracle (pre ++ fbad :: post).length fbad msg post hbad pre 1 hpre
  have hne : (pre ++ fbad :: post).isEmpty = false := by
    cases pre <;> rfl
  have hrun : uploadFolderRun oracle (pre ++ fbad :: post) =
      ((expectedTrace (pre ++ fbad :: post).length pre 1 ++
        [Event.progressReport
            (jsRound100 (1 + pre.length) (pre ++ fbad :: post).length)
            (1 + pre.length) (pre ++ fbad :: post).length,
          Event.procExit fbad false]) ++
        [Event.logMsg msg, Event.notifyError msg], some msg) := by
    unfold uploadFolderRun
    rw [hne, haux]
    simp only [Bool.false_eq_true, if_false]
  rw [hrun]
  refine ⟨?_, rfl, ?_, ?_⟩
  · rw [attempted_append, attempted_append, attempted_expectedTrace]
    simp [attempted]
  · simp
  · simp

/-- C2 witness: the abort theorem evaluated on targets `[A, B, C]`
where `A` fails with message `boom`: only `A` is attempted, the batch
reports Failed with `boom`, and `boom` is logged and surfaced. -/
theorem c2_witness :
    attempted (uploadFolderRun
      (fun f => if f = "A" then Except.error "boom" else Except.ok ())
      ["A", "B", "C"]).1 = ["A"] ∧
    (uploadFolderRun
      (fun f => if f = "A" then Except.error "boom" else Except.ok ())
      ["A", "B", "C"]).2 = some "boom" ∧
    Event.logMsg "boom" ∈ (uploadFolderRun
      (fun f => if f = "A" then Except.error "boom" else Except.ok ())
      ["A", "B", "C"]).1 ∧
    Event.notifyError "boom" ∈ (uploadFolderRun
      (fun f => if f = "A" then Except.error "boom" else Except.ok ())
      ["A", "B", "C"]).1 :=
  c2_theorem (fun f => if f = "A" then Except.error "boom" else Except.ok ())
    [] ["B", "C"] "A" "boom" (by intro f hf; cases hf) (by rfl)

theorem runBatchAux_all_ok (oracle : String → Except String Unit) (total : Nat) :
    ∀ (files : List String) (idx : Nat), (∀ f ∈ files, oracle f = Except.ok ()) →
      runBatchAux oracle total files idx = (expectedTrace total files idx, none) := by
  intro files
  induction files with
  | nil => intro idx _; rfl
  | cons f rest ih =>
    intro idx h
    have hf : oracle f = Except.ok () := h f (List.mem_cons_self f rest)
    have ih' := ih (idx + 1) (fun x hx => h x (List.mem_cons_of_mem f hx))
    simp only [runBatchAux, execOneTrace, hf, ih', expectedTrace]
    rfl

theorem reportIndices_expectedTrace (total : Nat) :
    ∀ (files : List String) (idx : Nat),
      reportIndices (expectedTrace total files idx) = List.range' idx files.length := by
  intro files
  induction files with
  | nil => intro idx; rfl
  | cons f rest ih =>
    intro idx
    simp only [expectedTrace, reportIndices, List.filterMap_cons, List.length_cons,
      List.range']
    rw [← reportIndices, ih (idx + 1)]

/-- C9 (amended): for a batch of `N` targets whose executions all
succeed, the trace is exactly, per target `i` (1-based), the progress
notification carrying `current = i`, `total = N` and
`percentage = round(100·i/N)` followed by target `i`'s process exit —
so the indices `1..N` are each emitted once, in order, with no skips or
repeats, but each progress notification is emitted BEFORE its target's
process is awaited (after the previous target's exit), not after. -/
theorem c9_theorem (oracle : String → Except String Unit) (files : List String)
    (hok : ∀ f ∈ files, oracle f = Except.ok ()) (hne : files ≠ []) :
    (uploadFolderRun oracle files).1 =
      expectedTrace files.length files 1 ++ [Event.notifyInfo "uploadSuccess"] ∧
    (uploadFolderRun oracle files).2 = none ∧
    reportIndices (expectedTrace files.length files 1) =
      List.range' 1 files.length := by
  have hne' : files.isEmpty = false := by
    cases files with
    | nil => exact absurd rfl hne
    | cons f rest => rfl
  unfold uploadFolderRun
  rw [hne']
  simp only [Bool.false_eq_true, if_false]
  rw [runBatchAux_all_ok oracle files.length files 1 hok]
  exact ⟨rfl, rfl, reportIndices_expectedTrace files.length files 1⟩

/-- C9 witness: the amended trace theorem evaluated on the two-target
batch `[a, b]` with an all-success oracle. -/
theorem c9_witness :
    (uploadFolderRun (fun _ => Except.ok ()) ["a", "b"]).1 =
      expectedTrace 2 ["a", "b"] 1 ++ [Event.notifyInfo "uploadSuccess"] ∧
    (uploadFolderRun (fun _ => Except.ok ()) ["a", "b"]).2 = none ∧
    reportIndices (expectedTrace 2 ["a", "b"] 1) = List.range' 1 2 :=
  c9_theorem (fun _ => Except.ok ()) ["a", "b"] (fun _ _ => rfl)
    (by intro h; cases h)

/-- C9 counterexample: for the single-target all-success batch
`[f1]`, the trace is the progress notification (percentage 100,
index 1, total 1) at position 0 followed by the target's process exit
at position 1 — and there are no positions `i < j` placing the exit
before the progress notification.  The claim's requirement that the
progress notification be emitted after the target's process has been
awaited to exit is therefore false on this input. -/
theorem c9_counterexample :
    (uploadFolderRun (fun _ => Except.ok ()) ["f1"]).1 =
      [Event.progressReport 100 1 1, Event.procExit "f1" true,
        Event.notifyInfo "uploadSuccess"] ∧
    ¬ ∃ i j : Fin 3, i < j ∧
      [Event.progressReport 100 1 1, Event.procExit "f1" true,
        Event.notifyInfo "uploadSuccess"].get i = Event.procExit "f1" true ∧
      [Event.progressReport 100 1 1, Event.procExit "f1" true,
        Event.notifyInfo "uploadSuccess"].get j = Event.progressReport 100 1 1 := by
  constructor
  · rfl
  · decide

end ContextRunner
